import Mathlib

/-!
Verification of `lib/fast_rcnn/train.py` (multi-GPU Fast R-CNN training
orchestrator): a shallow embedding of the training-loop, snapshot,
roidb-filtering and process fan-out logic, together with theorems about the
claimed behaviour.

Conventions of the embedding:
* numpy float arrays are modelled over `ℚ` (exact arithmetic);
* `net.params` is an association list from parameter names to a pair of
  weight/bias blobs; in-place numpy writes become functional updates of the
  first matching entry;
* the possibility that `net.save` raises is modelled by a boolean
  `save_ok` input: `save_ok = false` means the write raises, and the
  result then carries the live net state at the point of the raise;
* the informational prints and the timer are pure side effects with no
  influence on state and are not modelled;
* `rdl_roidb.add_bbox_regression_targets` lives in `roi_data_layer/roidb.py`
  (outside this file's source); the orchestrator embedding takes it as an
  opaque function argument `computeStats`.
-/

namespace FasterRCNN

/-- The `cfg.TRAIN` configuration fields consumed by `lib/fast_rcnn/train.py`.
Field `SNAPSHOT_TAG` models `cfg.TRAIN.SNAPSHOT_INFIX`, and `min_im_ratio`
models `cfg.TRAIN.MIN_IM_RATIO` (both renamed for Lean). -/
structure TrainConfig where
  BBOX_REG : Bool
  HAS_RPN : Bool
  BBOX_NORMALIZE_TARGETS : Bool
  BBOX_NORMALIZE_TARGETS_PRECOMPUTED : Bool
  SNAPSHOT_ITERS : Nat
  SNAPSHOT_TAG : String
  FG_THRESH : ℚ
  BG_THRESH_HI : ℚ
  BG_THRESH_LO : ℚ
  min_im_ratio : ℚ
  IMS_PER_BATCH : Nat
  REAL_BATCH_SIZE : Nat
  deriving Repr, DecidableEq

/-- One roidb entry, with the fields read by `filter_roidb`:
`entry['max_overlaps']`, `entry['width']`, `entry['height']`. -/
structure RoidbEntry where
  max_overlaps : List ℚ
  width : Nat
  height : Nat
  deriving Repr, DecidableEq

/-- The predicate `is_valid` nested in `filter_roidb` (train.py lines
143-158): an entry is kept iff it has a foreground RoI
(`overlap >= cfg.TRAIN.FG_THRESH`) or a background RoI
(`BG_THRESH_LO <= overlap < BG_THRESH_HI`), and its aspect ratio
`min(h,w)/float(max(h,w))` exceeds `cfg.TRAIN.MIN_IM_RATIO`. -/
def is_valid (cfg : TrainConfig) (entry : RoidbEntry) : Bool :=
  let overlaps := entry.max_overlaps
  let fg_inds := overlaps.filter fun o => decide (cfg.FG_THRESH ≤ o)
  let bg_inds := overlaps.filter fun o =>
    decide (o < cfg.BG_THRESH_HI) && decide (cfg.BG_THRESH_LO ≤ o)
  let valid := decide (0 < fg_inds.length) || decide (0 < bg_inds.length)
  let w := entry.width
  let h := entry.height
  let ratio : ℚ := (min h w : ℚ) / (max h w : ℚ)
  decide (cfg.min_im_ratio < ratio) && valid

/-- `filter_roidb` (train.py lines 140-165): keep exactly the valid
entries. -/
def filter_roidb (cfg : TrainConfig) (roidb : List RoidbEntry) : List RoidbEntry :=
  roidb.filter (is_valid cfg)

/-- One named parameter group of the net: `net.params[name][0].data` is the
weight array (a list of rows, one row per output dimension) and
`net.params[name][1].data` is the bias vector. -/
structure Blob where
  weight : List (List ℚ)
  bias : List ℚ
  deriving Repr, DecidableEq

/-- `net.params`, as an association list from parameter-group names to
blobs. -/
abbrev NetParams := List (String × Blob)

/-- Read `net.params[k]` (first matching entry). -/
def getParam : NetParams → String → Option Blob
  | [], _ => none
  | (k', v) :: rest, k => if k' = k then some v else getParam rest k

/-- `net.params.has_key(k)`. -/
def hasKey (net : NetParams) (k : String) : Bool :=
  (getParam net k).isSome

/-- In-place write `net.params[k][..].data[...] = ...`, as a functional
update of the first entry named `k` (absent keys are untouched; `snapshot`
only writes under `has_key`). -/
def setParam : NetParams → String → Blob → NetParams
  | [], _, _ => []
  | (k', v') :: rest, k, v =>
      if k' = k then (k, v) :: rest else (k', v') :: setParam rest k v

/-- The weight rescale of `snapshot` (train.py lines 83-85):
`net.params['bbox_pred'][0].data * self.bbox_stds[:, np.newaxis]`, i.e.
row `i` of the weight array is multiplied by `stds[i]`. -/
def unnormalizeWeight (w : List (List ℚ)) (stds : List ℚ) : List (List ℚ) :=
  List.zipWith (fun row s => row.map fun x => x * s) w stds

/-- The bias rescale of `snapshot` (train.py lines 86-88):
`net.params['bbox_pred'][1].data * self.bbox_stds + self.bbox_means`,
elementwise. -/
def unnormalizeBias (b means stds : List ℚ) : List ℚ :=
  List.zipWith (fun x m => x + m) (List.zipWith (fun x s => x * s) b stds) means

/-- The state a `SolverWrapper` carries into `snapshot` and `train_model`:
the configuration, `self.output_dir`, the solver's snapshot file stem
(`self.solver_param.snapshot_prefix`, renamed `snapshot_stem` for Lean),
and `self.bbox_means` / `self.bbox_stds`. -/
structure SnapshotCtx where
  cfg : TrainConfig
  output_dir : String
  snapshot_stem : String
  bbox_means : List ℚ
  bbox_stds : List ℚ
  deriving Repr, DecidableEq

/-- The checkpoint path built by `snapshot` (train.py lines 90-94):
the optional run tag (`'_' + cfg.TRAIN.SNAPSHOT_INFIX` when non-empty),
then `snapshot_prefix + tag + '_iter_{:d}' + '.caffemodel'`, joined under
`self.output_dir`. -/
def snapshotFilename (ctx : SnapshotCtx) (iter : Nat) : String :=
  let tagPart := if ctx.cfg.SNAPSHOT_TAG ≠ "" then "_" ++ ctx.cfg.SNAPSHOT_TAG else ""
  let filename := ctx.snapshot_stem ++ tagPart ++ "_iter_" ++ Nat.repr iter ++ ".caffemodel"
  ctx.output_dir ++ "/" ++ filename

/-- Outcome of one `snapshot()` call: on normal completion, the parameter
values handed to `net.save` (the persisted view), the live net after the
call returns, and the returned path; on a raise, the message and the live
net at the point of the raise. -/
inductive SnapshotResult where
  | ok (persisted : NetParams) (net : NetParams) (path : String)
  | err (msg : String) (net : NetParams)
  deriving DecidableEq

/-- `SolverWrapper.snapshot` (train.py lines 66-103). `rank ≠ 0` trips the
`assert self.rank==0`; when the rescaling branch applies, `bbox_pred` is
rescaled in place, the net is saved (`save_ok = false` models `net.save`
raising), and only after a successful save are the saved original arrays
written back. -/
def snapshot (ctx : SnapshotCtx) (rank : Nat) (iter : Nat) (net : NetParams)
    (save_ok : Bool) : SnapshotResult :=
  if rank = 0 then
    let scale_bbox_params := ctx.cfg.BBOX_REG && ctx.cfg.BBOX_NORMALIZE_TARGETS
      && hasKey net "bbox_pred"
    -- orig_0/orig_1 are the `.copy()` of the live arrays; net1 is the net
    -- after the two in-place rescale writes.
    let net1 :=
      if scale_bbox_params then
        match getParam net "bbox_pred" with
        | some blob =>
            setParam net "bbox_pred"
              ⟨unnormalizeWeight blob.weight ctx.bbox_stds,
               unnormalizeBias blob.bias ctx.bbox_means ctx.bbox_stds⟩
        | none => net
      else net
    let filename := snapshotFilename ctx iter
    if save_ok then
      -- restore net to original state from the saved copies
      let net2 :=
        if scale_bbox_params then
          match getParam net "bbox_pred" with
          | some orig => setParam net1 "bbox_pred" orig
          | none => net1
        else net1
      SnapshotResult.ok net1 net2 filename
    else
      SnapshotResult.err "net.save raised" net1
  else
    SnapshotResult.err "AssertionError: self.rank==0" net

/-- The loop-local state of `train_model`: the solver's iteration counter,
`last_snapshot_iter` (an `Int`, initialised to `-1`), and the accumulated
`model_paths`. -/
structure TrainState where
  iter : Nat
  last_snapshot_iter : Int
  model_paths : List String
  deriving Repr, DecidableEq

/-- One body of the `while` loop of `train_model` (train.py lines 110-121):
`self.solver.step(1)` advances the iteration counter by one, and on rank 0
at a multiple of `cfg.TRAIN.SNAPSHOT_ITERS` a snapshot is taken and its
path recorded.  Snapshots are assumed to save successfully (a raise would
abort the Python loop), and by `snapshot_restores_bbox_pred` a successful
snapshot leaves the net unchanged, so only the path matters here. -/
def stepState (ctx : SnapshotCtx) (rank : Nat) (st : TrainState) : TrainState :=
  let it := st.iter + 1
  if rank = 0 ∧ it % ctx.cfg.SNAPSHOT_ITERS = 0 then
    ⟨it, (it : Int), st.model_paths ++ [snapshotFilename ctx it]⟩
  else
    ⟨it, st.last_snapshot_iter, st.model_paths⟩

/-- The `while self.solver.iter < max_iters` loop of `train_model`. -/
def trainLoop (ctx : SnapshotCtx) (rank max_iters : Nat) (st : TrainState) :
    TrainState :=
  if _h : st.iter < max_iters then
    trainLoop ctx rank max_iters (stepState ctx rank st)
  else st
  termination_by max_iters - st.iter
  decreasing_by
    unfold stepState
    dsimp only
    split <;> dsimp only <;> omega

/-- `SolverWrapper.train_model` (train.py lines 105-125), starting from
solver iteration `start_iter` (a fresh solver starts at `0`):
run the loop, then on rank 0 take one final snapshot if the last iteration
was not already snapshotted, and return `model_paths`. -/
def train_model (ctx : SnapshotCtx) (rank : Nat) (start_iter max_iters : Nat) :
    List String :=
  let st := trainLoop ctx rank max_iters ⟨start_iter, -1, []⟩
  if rank = 0 ∧ st.last_snapshot_iter ≠ (st.iter : Int) then
    st.model_paths ++ [snapshotFilename ctx st.iter]
  else
    st.model_paths

/-- The per-process arguments built by `train_net_multi_gpus` for each
spawned `train_net` worker (train.py lines 181-189): the rank, the
(shared) normalization statistics — `none` models Python `None` when
`cfg.TRAIN.BBOX_REG` is off — the filtered roidb, and the iteration
bound. -/
structure WorkerArgs where
  rank : Nat
  bbox_means : Option (List ℚ)
  bbox_stds : Option (List ℚ)
  roidb : List RoidbEntry
  max_iters : Nat
  deriving DecidableEq

/-- `train_net` (train.py lines 195-208), run in a worker process: build
the `SolverWrapper` state, run `train_model`, and put the path list on the
queue iff `rank == 0`.  Returns the local `model_paths` and the optional
queue write. -/
def train_net_worker (cfg : TrainConfig) (snapshot_stem output_dir : String)
    (a : WorkerArgs) : List String × Option (List String) :=
  let ctx : SnapshotCtx :=
    ⟨cfg, output_dir, snapshot_stem, a.bbox_means.getD [], a.bbox_stds.getD []⟩
  let model_paths := train_model ctx a.rank 0 a.max_iters
  (model_paths, if a.rank = 0 then some model_paths else none)

/-- Result of a whole `train_net_multi_gpus` run: the argument tuples the
orchestrator spawned the workers with, the queue contents after all
workers terminated (in rank order), and the value of the final
`mp_queue.get()`. -/
structure MultiGpuRun where
  workerArgs : List WorkerArgs
  queue : List (List String)
  result : Option (List String)

/-- The argument tuple handed to the worker spawned with the given rank
(train.py lines 182-186): the rank, the shared statistics, the shared
filtered roidb and the iteration bound. -/
def workerArgsFor (stats : Option (List ℚ) × Option (List ℚ))
    (roidb2 : List RoidbEntry) (max_iters : Nat) (rank : Nat) : WorkerArgs :=
  ⟨rank, stats.1, stats.2, roidb2, max_iters⟩

/-- The queue contents after all workers have run and been joined: each
worker's conditional `queue.put`, collected in rank order. -/
def collectQueue (cfg : TrainConfig) (snapshot_stem output_dir : String)
    (args : List WorkerArgs) : List (List String) :=
  args.foldr
    (fun a acc =>
      match (train_net_worker cfg snapshot_stem output_dir a).2 with
      | some v => v :: acc
      | none => acc) []

/-- `train_net_multi_gpus` (train.py lines 167-193): filter the roidb,
compute the bbox regression statistics once (iff `cfg.TRAIN.BBOX_REG`;
`computeStats` stands for the external
`rdl_roidb.add_bbox_regression_targets`), spawn one worker per gpu with
rank `0, 1, ...` all receiving the same statistics, join them, and read
one value from the queue. -/
def train_net_multi_gpus (cfg : TrainConfig) (snapshot_stem output_dir : String)
    (computeStats : List RoidbEntry → List ℚ × List ℚ)
    (roidb : List RoidbEntry) (gpus : List Nat) (max_iters : Nat) : MultiGpuRun :=
  let roidb2 := filter_roidb cfg roidb
  let stats : Option (List ℚ) × Option (List ℚ) :=
    if cfg.BBOX_REG then
      let p := computeStats roidb2
      (some p.1, some p.2)
    else (none, none)
  let args := (List.range gpus.length).map (workerArgsFor stats roidb2 max_iters)
  let queue := collectQueue cfg snapshot_stem output_dir args
  ⟨args, queue, queue.head?⟩

/-- The assertion sequence of `SolverWrapper.__init__` (train.py lines
33-58): the RPN-precomputed-stats assert (line 39), the batch-size assert
(lines 43-45) with its `"{} vs {}"` message, and the layer-wise-reduce
assert (line 55). `solver_count` is `caffe.solver_count()` and
`iter_size` is `self.solver.param.iter_size`. -/
def solverWrapperInitChecks (cfg : TrainConfig) (solver_count iter_size : Nat)
    (layer_wise_reduce : Bool) : Except String Unit :=
  if cfg.HAS_RPN && cfg.BBOX_REG && cfg.BBOX_NORMALIZE_TARGETS
      && !cfg.BBOX_NORMALIZE_TARGETS_PRECOMPUTED then
    Except.error "AssertionError: cfg.TRAIN.BBOX_NORMALIZE_TARGETS_PRECOMPUTED"
  else if solver_count * cfg.IMS_PER_BATCH * iter_size ≠ cfg.REAL_BATCH_SIZE then
    Except.error (Nat.repr (solver_count * cfg.IMS_PER_BATCH * iter_size)
      ++ " vs " ++ Nat.repr cfg.REAL_BATCH_SIZE)
  else if !layer_wise_reduce then
    Except.error "AssertionError: self.solver.param.layer_wise_reduce"
  else
    Except.ok ()

theorem stepState_iter (ctx : SnapshotCtx) (rank : Nat) (st : TrainState) :
    (stepState ctx rank st).iter = st.iter + 1 := by
  unfold stepState
  dsimp only
  split <;> rfl

/-! Helper lemmas about the association-list net parameters. -/

theorem getParam_setParam_ne (net : NetParams) (k k' : String) (v : Blob)
    (h : k' ≠ k) : getParam (setParam net k v) k' = getParam net k' := by
  induction net with
  | nil => rfl
  | cons hd tl ih =>
      obtain ⟨k0, v0⟩ := hd
      by_cases hk : k0 = k
      · subst hk
        simp [setParam, getParam, Ne.symm h]
      · simp [setParam, getParam, hk]
        split <;> simp [ih]

theorem getParam_setParam_self (net : NetParams) (k : String) (v : Blob)
    (h : hasKey net k = true) : getParam (setParam net k v) k = some v := by
  induction net with
  | nil => simp [hasKey, getParam] at h
  | cons hd tl ih =>
      obtain ⟨k0, v0⟩ := hd
      by_cases hk : k0 = k
      · subst hk
        simp [setParam, getParam]
      · simp [hasKey, getParam, hk] at h
        simp [setParam, getParam, hk, ih h]

theorem setParam_setParam (net : NetParams) (k : String) (v w : Blob) :
    setParam (setParam net k v) k w = setParam net k w := by
  induction net with
  | nil => rfl
  | cons hd tl ih =>
      obtain ⟨k0, v0⟩ := hd
      by_cases hk : k0 = k
      · subst hk
        simp [setParam]
      · simp [setParam, hk, ih]

theorem setParam_getParam_self (net : NetParams) (k : String) (b : Blob)
    (h : getParam net k = some b) : setParam net k b = net := by
  induction net with
  | nil => rfl
  | cons hd tl ih =>
      obtain ⟨k0, v0⟩ := hd
      by_cases hk : k0 = k
      · subst hk
        simp [getParam] at h
        simp [setParam, h]
      · simp [getParam, hk] at h
        simp [setParam, hk, ih h]

theorem get?_zipWith {α β γ : Type} (f : α → β → γ) :
    ∀ (l1 : List α) (l2 : List β) (i : Nat) (a : α) (b : β),
      l1[i]? = some a → l2[i]? = some b →
      (List.zipWith f l1 l2)[i]? = some (f a b) := by
  intro l1
  induction l1 with
  | nil => intro l2 i a b h1 _; simp at h1
  | cons x xs ih =>
      intro l2 i a b h1 h2
      cases l2 with
      | nil => simp at h2
      | cons y ys =>
          cases i with
          | zero =>
              simp at h1 h2
              simp [h1, h2]
          | succ j =>
              simp at h1 h2
              simpa using ih ys j a b h1 h2

/-! Helper lemmas about decimal rendering (`Nat.repr`). -/

theorem digitChar_ne_zero_char (d : Nat) (h1 : 0 < d) (h2 : d < 10) :
    Nat.digitChar d ≠ '0' := by
  interval_cases d <;> decide

theorem toDigitsCore_head_digit :
    ∀ (fuel n : Nat) (ds : List Char), 0 < n → n < 10 ^ fuel →
      ∃ d, 0 < d ∧ d < 10 ∧
        (Nat.toDigitsCore 10 fuel n ds).head? = some (Nat.digitChar d) := by
  intro fuel
  induction fuel with
  | zero =>
      intro n ds h1 h2
      simp at h2
      omega
  | succ f ih =>
      intro n ds h1 h2
      simp only [Nat.toDigitsCore]
      by_cases h : n / 10 = 0
      · rw [if_pos h]
        have hlt : n < 10 := (Nat.div_eq_zero_iff (by norm_num)).mp h
        refine ⟨n % 10, ?_, ?_, ?_⟩
        · rw [Nat.mod_eq_of_lt hlt]; exact h1
        · exact Nat.mod_lt _ (by norm_num)
        · simp
      · rw [if_neg h]
        refine ih (n / 10) _ (Nat.pos_of_ne_zero h) ?_
        rw [Nat.div_lt_iff_lt_mul (by norm_num : (0:Nat) < 10)]
        calc n < 10 ^ (f + 1) := h2
          _ = 10 ^ f * 10 := by rw [pow_succ]

theorem repr_head_ne_zero (n : Nat) (h : 0 < n) :
    (Nat.repr n).data.head? ≠ some '0' := by
  have hn : n < 10 ^ (n + 1) :=
    lt_of_lt_of_le (Nat.lt_pow_self (by norm_num) n)
      (Nat.pow_le_pow_right (by norm_num) (Nat.le_succ n))
  obtain ⟨d, hd0, hd10, hh⟩ := toDigitsCore_head_digit (n + 1) n [] h hn
  have hdata : (Nat.repr n).data = Nat.toDigitsCore 10 (n + 1) n [] := by
    simp [Nat.repr, Nat.toDigits, List.asString]
  rw [hdata, hh]
  intro hc
  exact digitChar_ne_zero_char d hd0 hd10 (Option.some.inj hc)

/-- C5: `filter_roidb` retains an entry iff it is in the input and the
count of overlaps `≥ FG_THRESH` is positive or the count of overlaps in
`[BG_THRESH_LO, BG_THRESH_HI)` is positive, and additionally
`min(height,width)/max(height,width) > MIN_IM_RATIO`; all other entries
are excluded. -/
theorem filter_roidb_mem_iff (cfg : TrainConfig) (roidb : List RoidbEntry)
    (e : RoidbEntry) :
    e ∈ filter_roidb cfg roidb ↔
      e ∈ roidb ∧
        ((0 < e.max_overlaps.countP (fun o => decide (cfg.FG_THRESH ≤ o)) ∨
          0 < e.max_overlaps.countP (fun o =>
            decide (o < cfg.BG_THRESH_HI) && decide (cfg.BG_THRESH_LO ≤ o))) ∧
         cfg.min_im_ratio <
           (min e.height e.width : ℚ) / (max e.height e.width : ℚ)) := by
  rw [filter_roidb, List.mem_filter, is_valid]
  simp only [List.countP_eq_length_filter, Bool.and_eq_true, Bool.or_eq_true,
    decide_eq_true_eq]
  tauto

/-- C8: for every snapshot call (rank 0, successful save) the returned
path is the configured output directory joined with a filename of exactly
the form prefix, optional `_tag` (present iff the configured tag is
non-empty), `_iter_`, the iteration in plain decimal (no leading zeros),
and the extension. -/
theorem snapshot_path_format (ctx : SnapshotCtx) (iter : Nat) (net : NetParams) :
    (∃ persisted net2, snapshot ctx 0 iter net true =
        SnapshotResult.ok persisted net2 (snapshotFilename ctx iter)) ∧
    snapshotFilename ctx iter =
      ctx.output_dir ++ "/" ++
        (ctx.snapshot_stem ++
          (if ctx.cfg.SNAPSHOT_TAG = "" then "" else "_" ++ ctx.cfg.SNAPSHOT_TAG) ++
          "_iter_" ++ Nat.repr iter ++ ".caffemodel") ∧
    (iter = 0 ∨ (Nat.repr iter).data.head? ≠ some '0') := by
  refine ⟨⟨_, _, rfl⟩, ?_, ?_⟩
  · unfold snapshotFilename
    by_cases h : ctx.cfg.SNAPSHOT_TAG = "" <;> simp [h]
  · rcases Nat.eq_zero_or_pos iter with h | h
    · exact Or.inl h
    · exact Or.inr (repr_head_ne_zero iter h)

/-- C9: provided the earlier RPN-normalization assert passes, the
`SolverWrapper.__init__` assertion sequence fails with the batch-size
assertion message iff `solver_count * IMS_PER_BATCH * iter_size` differs
from `REAL_BATCH_SIZE`; when they agree, construction proceeds past this
check (the outcome is then decided by the later layer-wise-reduce assert
alone). -/
theorem init_batch_size_check (cfg : TrainConfig) (solver_count iter_size : Nat)
    (layer_wise_reduce : Bool)
    (hpre : (cfg.HAS_RPN && cfg.BBOX_REG && cfg.BBOX_NORMALIZE_TARGETS
      && !cfg.BBOX_NORMALIZE_TARGETS_PRECOMPUTED) = false) :
    solverWrapperInitChecks cfg solver_count iter_size layer_wise_reduce =
      if solver_count * cfg.IMS_PER_BATCH * iter_size ≠ cfg.REAL_BATCH_SIZE then
        Except.error (Nat.repr (solver_count * cfg.IMS_PER_BATCH * iter_size)
          ++ " vs " ++ Nat.repr cfg.REAL_BATCH_SIZE)
      else if layer_wise_reduce then Except.ok ()
      else Except.error "AssertionError: self.solver.param.layer_wise_reduce" := by
  unfold solverWrapperInitChecks
  rw [if_neg (by simp [hpre])]
  cases layer_wise_reduce <;> simp

/-- C2: when the rescaling branch applies (bbox regression and target
normalization enabled, a `bbox_pred` group present) and the save succeeds,
the live `bbox_pred` weight and bias after `snapshot` returns equal their
values before the call. -/
theorem snapshot_restores_bbox_pred (ctx : SnapshotCtx) (iter : Nat)
    (net persisted net2 : NetParams) (path : String)
    (hreg : ctx.cfg.BBOX_REG = true)
    (hnorm : ctx.cfg.BBOX_NORMALIZE_TARGETS = true)
    (hkey : hasKey net "bbox_pred" = true)
    (hok : snapshot ctx 0 iter net true = SnapshotResult.ok persisted net2 path) :
    getParam net2 "bbox_pred" = getParam net "bbox_pred" := by
  obtain ⟨blob, hblob⟩ : ∃ b, getParam net "bbox_pred" = some b := by
    unfold hasKey at hkey
    exact Option.isSome_iff_exists.mp hkey
  unfold snapshot at hok
  simp [hreg, hnorm, hkey, hblob] at hok
  obtain ⟨-, h2, -⟩ := hok
  rw [← h2, setParam_setParam, setParam_getParam_self net _ _ hblob]

/-- C3: when bbox regression and target normalization are enabled and a
`bbox_pred` group is present, the parameter values handed to `net.save`
are exactly `weight' = weight * std_per_dim` (row `i` of the weight scaled
by `stds[i]`) and `bias' = bias * std + mean` per dimension, while every
other parameter group is persisted with its live value. -/
theorem snapshot_persisted_values (ctx : SnapshotCtx) (iter : Nat)
    (net persisted net2 : NetParams) (path : String) (blob : Blob)
    (hreg : ctx.cfg.BBOX_REG = true)
    (hnorm : ctx.cfg.BBOX_NORMALIZE_TARGETS = true)
    (hblob : getParam net "bbox_pred" = some blob)
    (hok : snapshot ctx 0 iter net true = SnapshotResult.ok persisted net2 path) :
    ∃ pblob : Blob, getParam persisted "bbox_pred" = some pblob ∧
      (∀ (i : Nat) (s : ℚ) (row : List ℚ),
        ctx.bbox_stds[i]? = some s → blob.weight[i]? = some row →
        pblob.weight[i]? = some (row.map fun x => x * s)) ∧
      (∀ (i : Nat) (b s m : ℚ),
        blob.bias[i]? = some b → ctx.bbox_stds[i]? = some s →
        ctx.bbox_means[i]? = some m → pblob.bias[i]? = some (b * s + m)) ∧
      (∀ k, k ≠ "bbox_pred" → getParam persisted k = getParam net k) := by
  have hkey : hasKey net "bbox_pred" = true := by
    unfold hasKey
    simp [hblob]
  unfold snapshot at hok
  simp [hreg, hnorm, hkey, hblob] at hok
  obtain ⟨h1, -, -⟩ := hok
  refine ⟨⟨unnormalizeWeight blob.weight ctx.bbox_stds,
    unnormalizeBias blob.bias ctx.bbox_means ctx.bbox_stds⟩, ?_, ?_, ?_, ?_⟩
  · rw [← h1, getParam_setParam_self]
    exact hkey
  · intro i s row hs hrow
    exact get?_zipWith (fun row s => row.map fun x => x * s)
      blob.weight ctx.bbox_stds i row s hrow hs
  · intro i b s m hb hs hm
    exact get?_zipWith (fun x m => x + m)
      (List.zipWith (fun x s => x * s) blob.bias ctx.bbox_stds)
      ctx.bbox_means i (b * s) m
      (get?_zipWith (fun x s => x * s) blob.bias ctx.bbox_stds i b s hb hs) hm
  · intro k hk
    rw [← h1, getParam_setParam_ne]
    exact hk

/-- C4 (amended): `snapshot` restores the live `bbox_pred` parameters only
on the normal exit path.  There is no handler around `net.save`
(train.py line 96), so when the save raises, the raise propagates with the
live `bbox_pred` parameters still holding the rescaled values — the
restore on lines 99-102 is skipped. -/
theorem snapshot_restore_only_on_success (ctx : SnapshotCtx) (iter : Nat)
    (net : NetParams) (blob : Blob)
    (hreg : ctx.cfg.BBOX_REG = true)
    (hnorm : ctx.cfg.BBOX_NORMALIZE_TARGETS = true)
    (hblob : getParam net "bbox_pred" = some blob) :
    (∃ persisted path, snapshot ctx 0 iter net true =
        SnapshotResult.ok persisted net path) ∧
    snapshot ctx 0 iter net false =
      SnapshotResult.err "net.save raised"
        (setParam net "bbox_pred"
          ⟨unnormalizeWeight blob.weight ctx.bbox_stds,
           unnormalizeBias blob.bias ctx.bbox_means ctx.bbox_stds⟩) := by
  have hkey : hasKey net "bbox_pred" = true := by
    unfold hasKey
    simp [hblob]
  constructor
  · refine ⟨setParam net "bbox_pred"
      ⟨unnormalizeWeight blob.weight ctx.bbox_stds,
       unnormalizeBias blob.bias ctx.bbox_means ctx.bbox_stds⟩,
      snapshotFilename ctx iter, ?_⟩
    unfold snapshot
    simp [hreg, hnorm, hkey, hblob, setParam_setParam,
      setParam_getParam_self net _ _ hblob]
  · unfold snapshot
    simp [hreg, hnorm, hkey, hblob]

/-- C4 (counterexample to the claim as stated): a concrete snapshot call
whose save fails and whose live `bbox_pred` parameters afterwards differ
from their pre-call values — they are left rescaled, not restored. -/
theorem snapshot_save_failure_cex :
    snapshot ⟨⟨true, false, true, true, 4, "", 0, 0, 0, 0, 1, 1⟩, "out", "model",
        [1], [2]⟩ 0 5
      [("bbox_pred", ⟨[[1]], [0]⟩)] false =
      SnapshotResult.err "net.save raised" [("bbox_pred", ⟨[[2]], [1]⟩)] ∧
    getParam [("bbox_pred", ⟨[[2]], [1]⟩)] "bbox_pred" ≠
      getParam [("bbox_pred", ⟨[[1]], [0]⟩)] "bbox_pred" := by
  constructor
  · with_unfolding_all rfl
  · decide

/-- Closed form of the rank-0 training loop: the loop drives the iteration
counter up to `max_iters`, appends one snapshot path for every iteration in
`(st.iter, max_iters]` divisible by `SNAPSHOT_ITERS`, and
`last_snapshot_iter` ends at the largest such iteration (or keeps its old
value when there is none). -/
theorem trainLoop_rank0_spec (ctx : SnapshotCtx) (max_iters : Nat) :
    ∀ (fuel : Nat) (st : TrainState), max_iters - st.iter ≤ fuel →
      trainLoop ctx 0 max_iters st =
        ⟨max st.iter max_iters,
         (((List.range' (st.iter + 1) (max_iters - st.iter)).filter
             (fun i => i % ctx.cfg.SNAPSHOT_ITERS == 0)).getLast?.map
            (fun j => (j : Int))).getD st.last_snapshot_iter,
         st.model_paths ++
           ((List.range' (st.iter + 1) (max_iters - st.iter)).filter
             (fun i => i % ctx.cfg.SNAPSHOT_ITERS == 0)).map
             (snapshotFilename ctx)⟩ := by
  intro fuel
  induction fuel with
  | zero =>
      intro st hf
      obtain ⟨it0, l0, p0⟩ := st
      have h : ¬ it0 < max_iters := by simp at hf ⊢; omega
      rw [trainLoop, dif_neg h]
      have h2 : max_iters - it0 = 0 := by omega
      simp only [h2] at *
      simp [List.range', max_eq_left (by omega : max_iters ≤ it0)]
  | succ f ih =>
      intro st hf
      obtain ⟨it0, l0, p0⟩ := st
      by_cases h : it0 < max_iters
      · rw [trainLoop, dif_pos h]
        have hstep := ih (stepState ctx 0 ⟨it0, l0, p0⟩)
          (by rw [stepState_iter]; simp at hf ⊢; omega)
        rw [hstep]
        unfold stepState
        dsimp only
        have hrange : List.range' (it0 + 1) (max_iters - it0) =
            (it0 + 1) :: List.range' (it0 + 1 + 1) (max_iters - (it0 + 1)) := by
          have he : max_iters - it0 = (max_iters - (it0 + 1)) + 1 := by omega
          rw [he, List.range'_succ]
        by_cases hs : (it0 + 1) % ctx.cfg.SNAPSHOT_ITERS = 0
        · rw [if_pos ⟨rfl, hs⟩]
          dsimp only
          rw [hrange, List.filter_cons_of_pos (by simpa using hs)]
          rw [max_eq_right (by omega : it0 + 1 ≤ max_iters),
            max_eq_right (by omega : it0 ≤ max_iters)]
          rw [List.getLast?_cons]
          cases hlast : (List.filter (fun i => i % ctx.cfg.SNAPSHOT_ITERS == 0)
              (List.range' (it0 + 1 + 1) (max_iters - (it0 + 1)))).getLast? with
          | none => simp
          | some j => simp
        · rw [if_neg (by rintro ⟨-, hc⟩; exact hs hc)]
          dsimp only
          rw [hrange, List.filter_cons_of_neg (by simpa using hs)]
          rw [max_eq_right (by omega : it0 + 1 ≤ max_iters),
            max_eq_right (by omega : it0 ≤ max_iters)]
      · rw [trainLoop, dif_neg h]
        have h2 : max_iters - it0 = 0 := by omega
        simp only [h2]
        simp [List.range', max_eq_left (by omega : max_iters ≤ it0)]

/-- On every rank other than 0, the loop only advances the iteration
counter: `last_snapshot_iter` and `model_paths` are untouched. -/
theorem trainLoop_rank_ne_spec (ctx : SnapshotCtx) (rank max_iters : Nat)
    (hr : rank ≠ 0) :
    ∀ (fuel : Nat) (st : TrainState), max_iters - st.iter ≤ fuel →
      trainLoop ctx rank max_iters st =
        ⟨max st.iter max_iters, st.last_snapshot_iter, st.model_paths⟩ := by
  intro fuel
  induction fuel with
  | zero =>
      intro st hf
      obtain ⟨it0, l0, p0⟩ := st
      have h : ¬ it0 < max_iters := by simp at hf ⊢; omega
      rw [trainLoop, dif_neg h]
      simp [max_eq_left (by omega : max_iters ≤ it0)]
  | succ f ih =>
      intro st hf
      obtain ⟨it0, l0, p0⟩ := st
      by_cases h : it0 < max_iters
      · rw [trainLoop, dif_pos h]
        have hstep := ih (stepState ctx rank ⟨it0, l0, p0⟩)
          (by rw [stepState_iter]; simp at hf ⊢; omega)
        rw [hstep]
        unfold stepState
        dsimp only
        rw [if_neg (by rintro ⟨hc, -⟩; exact hr hc)]
        dsimp only
        rw [max_eq_right (by omega : it0 + 1 ≤ max_iters),
          max_eq_right (by omega : it0 ≤ max_iters)]
      · rw [trainLoop, dif_neg h]
        simp [max_eq_left (by omega : max_iters ≤ it0)]

/-- On a rank other than 0, `train_model` returns no paths at all. -/
theorem train_model_nonroot_empty (ctx : SnapshotCtx) (rank s0 m : Nat)
    (hr : rank ≠ 0) : train_model ctx rank s0 m = [] := by
  unfold train_model
  rw [trainLoop_rank_ne_spec ctx rank m hr m ⟨s0, -1, []⟩ (by simp)]
  dsimp only
  rw [if_neg (by rintro ⟨hc, -⟩; exact hr hc)]

/-- C1: on rank 0, starting from a fresh solver (iteration 0), the solver
is stepped while its counter is below `max_iters`; a snapshot is recorded
at every iteration divisible by `SNAPSHOT_ITERS`, and one final snapshot is
appended after the loop iff the last iteration was not itself a snapshot
iteration.  In particular with `max_iters = 10` and `SNAPSHOT_ITERS = 4`
the returned paths are those of iterations 4, 8 and 10, in that order. -/
theorem train_model_snapshot_schedule (ctx : SnapshotCtx) (max_iters : Nat)
    (hk : 0 < ctx.cfg.SNAPSHOT_ITERS) :
    (train_model ctx 0 0 max_iters =
      ((List.range' 1 max_iters).filter
          (fun i => i % ctx.cfg.SNAPSHOT_ITERS == 0)).map (snapshotFilename ctx) ++
        (if max_iters % ctx.cfg.SNAPSHOT_ITERS = 0 ∧ 0 < max_iters then []
         else [snapshotFilename ctx max_iters])) ∧
    (ctx.cfg.SNAPSHOT_ITERS = 4 →
      train_model ctx 0 0 10 =
        [snapshotFilename ctx 4, snapshotFilename ctx 8,
         snapshotFilename ctx 10]) := by
  have hgen : ∀ M : Nat, train_model ctx 0 0 M =
      ((List.range' 1 M).filter
          (fun i => i % ctx.cfg.SNAPSHOT_ITERS == 0)).map (snapshotFilename ctx) ++
        (if M % ctx.cfg.SNAPSHOT_ITERS = 0 ∧ 0 < M then []
         else [snapshotFilename ctx M]) := by
    intro M
    unfold train_model
    rw [trainLoop_rank0_spec ctx M M ⟨0, -1, []⟩ (by simp)]
    dsimp only
    rw [max_eq_right (Nat.zero_le M), Nat.sub_zero, Nat.zero_add]
    by_cases hM : M % ctx.cfg.SNAPSHOT_ITERS = 0 ∧ 0 < M
    · obtain ⟨hmod, hpos⟩ := hM
      obtain ⟨m, rfl⟩ : ∃ m, M = m + 1 := ⟨M - 1, by omega⟩
      have hsplit : List.range' 1 (m + 1) = List.range' 1 m ++ [m + 1] := by
        rw [List.range'_concat]
        simp [Nat.add_comm]
      rw [hsplit, List.filter_append, List.filter_cons_of_pos (by simpa using hmod),
        List.filter_nil, List.getLast?_concat]
      rw [if_neg (by rintro ⟨-, hc⟩; exact hc rfl)]
      rw [if_pos ⟨hmod, hpos⟩]
      simp
    · rw [if_neg hM]
      have hne : ((((List.range' 1 M).filter
          (fun i => i % ctx.cfg.SNAPSHOT_ITERS == 0)).getLast?.map
            (fun j => (j : Int))).getD (-1)) ≠ (M : Int) := by
        cases hlast : ((List.range' 1 M).filter
            (fun i => i % ctx.cfg.SNAPSHOT_ITERS == 0)).getLast? with
        | none =>
            intro hc
            have hc' : (-1 : Int) = (M : Int) := hc
            omega
        | some j =>
            have hjmem : j ∈ (List.range' 1 M).filter
                (fun i => i % ctx.cfg.SNAPSHOT_ITERS == 0) := by
              obtain ⟨ys, hys⟩ := List.getLast?_eq_some_iff.mp hlast
              rw [hys]
              simp
            rw [List.mem_filter, List.mem_range'_1] at hjmem
            obtain ⟨⟨hj1, hj2⟩, hjk⟩ := hjmem
            have hjk' : j % ctx.cfg.SNAPSHOT_ITERS = 0 := by simpa using hjk
            have : j ≠ M := by
              intro hEq
              subst hEq
              exact hM ⟨hjk', by omega⟩
            simp
            omega
      rw [if_pos ⟨rfl, hne⟩]
      simp
  refine ⟨hgen max_iters, fun hk4 => ?_⟩
  rw [hgen 10, hk4]
  have hfilter : (List.range' 1 10).filter (fun i => i % 4 == 0) = [4, 8] := by
    decide
  rw [hfilter]
  norm_num

/-- C10: on rank 0, `train_model` always returns at least one checkpoint
path: even when `max_iters` does not exceed the solver's current iteration
(so the loop body never runs), the final-snapshot branch fires because
`last_snapshot_iter` starts at `-1`, which can never equal the solver's
(non-negative) iteration count. -/
theorem train_model_rank0_nonempty (ctx : SnapshotCtx) (start_iter max_iters : Nat) :
    train_model ctx 0 start_iter max_iters ≠ [] := by
  unfold train_model
  rw [trainLoop_rank0_spec ctx max_iters max_iters ⟨start_iter, -1, []⟩ (by simp)]
  dsimp only
  split
  · simp
  · rename_i hcond
    rw [not_and_or] at hcond
    rcases hcond with hcond | hcond
    · exact absurd rfl hcond
    · rw [not_not] at hcond
      cases hfilter : (List.range' (start_iter + 1) (max_iters - start_iter)).filter
          (fun i => i % ctx.cfg.SNAPSHOT_ITERS == 0) with
      | nil =>
          exfalso
          rw [hfilter] at hcond
          simp at hcond
          omega
      | cons a t => simp [hfilter]

theorem collectQueue_cons (cfg : TrainConfig) (stem outdir : String)
    (a : WorkerArgs) (l : List WorkerArgs) :
    collectQueue cfg stem outdir (a :: l) =
      match (train_net_worker cfg stem outdir a).2 with
      | some v => v :: collectQueue cfg stem outdir l
      | none => collectQueue cfg stem outdir l := rfl

/-- Collecting the queue writes of workers that never write leaves the
queue empty. -/
theorem collectQueue_none (cfg : TrainConfig) (stem outdir : String) :
    ∀ l : List WorkerArgs,
      (∀ a ∈ l, (train_net_worker cfg stem outdir a).2 = none) →
      collectQueue cfg stem outdir l = [] := by
  intro l
  induction l with
  | nil => intro _; rfl
  | cons a t ih =>
      intro h
      have ha := h a (by simp)
      have ht := ih fun b hb => h b (by simp [hb])
      rw [collectQueue_cons, ha, ht]

/-- C7: non-root ranks return an empty path list from `train_model` and
never write to the result queue; the queue ends up holding exactly the
rank-0 worker's path list, and `train_net_multi_gpus` returns exactly that
value. -/
theorem root_only_result (cfg : TrainConfig) (stem outdir : String)
    (computeStats : List RoidbEntry → List ℚ × List ℚ)
    (roidb : List RoidbEntry) (gpus : List Nat) (max_iters : Nat)
    (hg : gpus ≠ []) :
    (∀ (ctx : SnapshotCtx) (rank s0 m : Nat), rank ≠ 0 →
      train_model ctx rank s0 m = []) ∧
    (∀ a ∈ (train_net_multi_gpus cfg stem outdir computeStats
        roidb gpus max_iters).workerArgs,
      a.rank ≠ 0 →
      (train_net_worker cfg stem outdir a).1 = [] ∧
      (train_net_worker cfg stem outdir a).2 = none) ∧
    (∃ a0, (train_net_multi_gpus cfg stem outdir computeStats
        roidb gpus max_iters).workerArgs.head? = some a0 ∧
      a0.rank = 0 ∧
      (train_net_multi_gpus cfg stem outdir computeStats
        roidb gpus max_iters).queue = [(train_net_worker cfg stem outdir a0).1] ∧
      (train_net_multi_gpus cfg stem outdir computeStats
        roidb gpus max_iters).result =
          some ((train_net_worker cfg stem outdir a0).1)) := by
  refine ⟨fun ctx rank s0 m hr => train_model_nonroot_empty ctx rank s0 m hr,
    ?_, ?_⟩
  · intro a _ hr
    unfold train_net_worker
    refine ⟨train_model_nonroot_empty _ _ _ _ hr, ?_⟩
    simp [hr]
  · obtain ⟨n, hn⟩ : ∃ n, gpus.length = n + 1 := by
      cases gpus with
      | nil => exact absurd rfl hg
      | cons g gs => exact ⟨gs.length, rfl⟩
    have hrest : ∀ (stats : Option (List ℚ) × Option (List ℚ))
        (rb : List RoidbEntry),
        collectQueue cfg stem outdir
          (List.map (workerArgsFor stats rb max_iters)
            (List.map Nat.succ (List.range n))) = [] := by
      intro stats rb
      apply collectQueue_none
      intro a ha
      obtain ⟨r, hr, rfl⟩ := List.mem_map.mp ha
      obtain ⟨j, -, rfl⟩ := List.mem_map.mp hr
      unfold train_net_worker workerArgsFor
      simp
    unfold train_net_multi_gpus
    dsimp only
    rw [hn, List.range_succ_eq_map, List.map_cons]
    refine ⟨_, rfl, rfl, ?_, ?_⟩ <;>
      rw [collectQueue_cons, hrest] <;>
      unfold train_net_worker workerArgsFor <;>
      simp

/-- C6: when bbox regression is enabled, the normalization statistics are
computed once, from the already-filtered roidb, and the identical
`(means, stds)` pair (and the identical filtered roidb) is put into the
argument tuple of every spawned worker. -/
theorem stats_computed_once_shared (cfg : TrainConfig) (stem outdir : String)
    (computeStats : List RoidbEntry → List ℚ × List ℚ)
    (roidb : List RoidbEntry) (gpus : List Nat) (max_iters : Nat)
    (hreg : cfg.BBOX_REG = true) :
    ∀ a ∈ (train_net_multi_gpus cfg stem outdir computeStats
        roidb gpus max_iters).workerArgs,
      a.bbox_means = some (computeStats (filter_roidb cfg roidb)).1 ∧
      a.bbox_stds = some (computeStats (filter_roidb cfg roidb)).2 ∧
      a.roidb = filter_roidb cfg roidb ∧
      a.max_iters = max_iters := by
  intro a ha
  unfold train_net_multi_gpus at ha
  dsimp only at ha
  rw [hreg] at ha
  simp only [if_true] at ha
  obtain ⟨r, -, rfl⟩ := List.mem_map.mp ha
  unfold workerArgsFor
  exact ⟨rfl, rfl, rfl, rfl⟩

/-- Witness for C1: with `SNAPSHOT_ITERS = 4` and `max_iters = 10` the
rank-0 run returns exactly the three checkpoint paths of iterations 4, 8
and 10, in order. -/
theorem train_model_snapshot_schedule_witness :
    (0 : Nat) < 4 ∧
    train_model ⟨⟨true, true, true, true, 4, "", 0, 0, 0, 0, 1, 2⟩,
        "out", "model", [], []⟩ 0 0 10 =
      ["out/model_iter_4.caffemodel", "out/model_iter_8.caffemodel",
       "out/model_iter_10.caffemodel"] := by
  refine ⟨by decide, ?_⟩
  have h := (train_model_snapshot_schedule
    ⟨⟨true, true, true, true, 4, "", 0, 0, 0, 0, 1, 2⟩, "out", "model", [], []⟩
    10 (by decide)).2 rfl
  rw [h]
  rfl

/-- Witness for C2 at a concrete net: the successful snapshot leaves the
live `bbox_pred` blob equal to its pre-call value. -/
theorem snapshot_restores_bbox_pred_witness :
    snapshot ⟨⟨true, false, true, true, 4, "", 0, 0, 0, 0, 1, 1⟩, "out",
        "model", [1], [2]⟩ 0 7 [("bbox_pred", ⟨[[3]], [4]⟩)] true =
      SnapshotResult.ok [("bbox_pred", ⟨[[6]], [9]⟩)]
        [("bbox_pred", ⟨[[3]], [4]⟩)] "out/model_iter_7.caffemodel" ∧
    getParam [("bbox_pred", ⟨[[3]], [4]⟩)] "bbox_pred" =
      getParam [("bbox_pred", ⟨[[3]], [4]⟩)] "bbox_pred" := by
  have hok : snapshot ⟨⟨true, false, true, true, 4, "", 0, 0, 0, 0, 1, 1⟩, "out",
      "model", [1], [2]⟩ 0 7 [("bbox_pred", ⟨[[3]], [4]⟩)] true =
      SnapshotResult.ok [("bbox_pred", ⟨[[6]], [9]⟩)]
        [("bbox_pred", ⟨[[3]], [4]⟩)] "out/model_iter_7.caffemodel" := by
    with_unfolding_all rfl
  exact ⟨hok, snapshot_restores_bbox_pred _ 7 _ _ _ _ rfl rfl (by decide) hok⟩

/-- Witness for C3 at a concrete net: weight `3` persists as `3 * 2 = 6`
and bias `4` as `4 * 2 + 1 = 9`. -/
theorem snapshot_persisted_values_witness :
    ∃ pblob : Blob,
      getParam [("bbox_pred", Blob.mk [[6]] [9])] "bbox_pred" = some pblob ∧
      (∀ (i : Nat) (s : ℚ) (row : List ℚ),
        [(2 : ℚ)][i]? = some s → [[(3 : ℚ)]][i]? = some row →
        pblob.weight[i]? = some (row.map fun x => x * s)) ∧
      (∀ (i : Nat) (b s m : ℚ),
        [(4 : ℚ)][i]? = some b → [(2 : ℚ)][i]? = some s →
        [(1 : ℚ)][i]? = some m → pblob.bias[i]? = some (b * s + m)) ∧
      (∀ k, k ≠ "bbox_pred" →
        getParam [("bbox_pred", Blob.mk [[6]] [9])] k =
          getParam [("bbox_pred", Blob.mk [[3]] [4])] k) := by
  have hok : snapshot ⟨⟨true, false, true, true, 4, "", 0, 0, 0, 0, 1, 1⟩, "out",
      "model", [1], [2]⟩ 0 7 [("bbox_pred", ⟨[[3]], [4]⟩)] true =
      SnapshotResult.ok [("bbox_pred", ⟨[[6]], [9]⟩)]
        [("bbox_pred", ⟨[[3]], [4]⟩)] "out/model_iter_7.caffemodel" := by
    with_unfolding_all rfl
  exact snapshot_persisted_values
    ⟨⟨true, false, true, true, 4, "", 0, 0, 0, 0, 1, 1⟩, "out", "model", [1], [2]⟩
    7 [("bbox_pred", ⟨[[3]], [4]⟩)] [("bbox_pred", ⟨[[6]], [9]⟩)]
    [("bbox_pred", ⟨[[3]], [4]⟩)] "out/model_iter_7.caffemodel"
    ⟨[[3]], [4]⟩ rfl rfl (by decide) hok

/-- Witness for the amended C4 at a concrete net: on success the live net
is restored, on a failed save it is left rescaled. -/
theorem snapshot_restore_only_on_success_witness :
    (∃ persisted path,
      snapshot ⟨⟨true, false, true, true, 4, "", 0, 0, 0, 0, 1, 1⟩, "out",
          "model", [1], [2]⟩ 0 5 [("bbox_pred", ⟨[[1]], [0]⟩)] true =
        SnapshotResult.ok persisted [("bbox_pred", ⟨[[1]], [0]⟩)] path) ∧
    snapshot ⟨⟨true, false, true, true, 4, "", 0, 0, 0, 0, 1, 1⟩, "out",
        "model", [1], [2]⟩ 0 5 [("bbox_pred", ⟨[[1]], [0]⟩)] false =
      SnapshotResult.err "net.save raised"
        (setParam [("bbox_pred", ⟨[[1]], [0]⟩)] "bbox_pred"
          ⟨unnormalizeWeight [[1]] [2], unnormalizeBias [0] [1] [2]⟩) :=
  snapshot_restore_only_on_success _ 5 _ ⟨[[1]], [0]⟩ rfl rfl (by decide)

/-- Witness for C6: with two gpus and an opaque statistics function, every
spawned worker receives the same `(means, stds)` pair, the same filtered
roidb, and the same iteration bound. -/
theorem stats_computed_once_shared_witness :
    (workerArgsFor (some [1], some [2]) [] 3 1).bbox_means = some [1] ∧
    (workerArgsFor (some [1], some [2]) [] 3 1).bbox_stds = some [2] ∧
    (workerArgsFor (some [1], some [2]) [] 3 1).roidb = [] ∧
    (workerArgsFor (some [1], some [2]) [] 3 1).max_iters = 3 :=
  stats_computed_once_shared ⟨true, false, true, true, 4, "", 0, 0, 0, 0, 1, 1⟩
    "model" "out" (fun _ => ([1], [2])) [] [5, 6] 3 rfl
    (workerArgsFor (some [1], some [2]) [] 3 1) (by decide)

/-- Witness for C7: the instantiation of `root_only_result` at a concrete
two-gpu run. -/
theorem root_only_result_witness :
    (∀ (ctx : SnapshotCtx) (rank s0 m : Nat), rank ≠ 0 →
      train_model ctx rank s0 m = []) ∧
    (∀ a ∈ (train_net_multi_gpus ⟨true, false, true, true, 4, "", 0, 0, 0, 0, 1, 1⟩
        "model" "out" (fun _ => ([1], [2])) [] [5, 6] 3).workerArgs,
      a.rank ≠ 0 →
      (train_net_worker ⟨true, false, true, true, 4, "", 0, 0, 0, 0, 1, 1⟩
        "model" "out" a).1 = [] ∧
      (train_net_worker ⟨true, false, true, true, 4, "", 0, 0, 0, 0, 1, 1⟩
        "model" "out" a).2 = none) ∧
    (∃ a0, (train_net_multi_gpus ⟨true, false, true, true, 4, "", 0, 0, 0, 0, 1, 1⟩
        "model" "out" (fun _ => ([1], [2])) [] [5, 6] 3).workerArgs.head? = some a0 ∧
      a0.rank = 0 ∧
      (train_net_multi_gpus ⟨true, false, true, true, 4, "", 0, 0, 0, 0, 1, 1⟩
        "model" "out" (fun _ => ([1], [2])) [] [5, 6] 3).queue =
        [(train_net_worker ⟨true, false, true, true, 4, "", 0, 0, 0, 0, 1, 1⟩
          "model" "out" a0).1] ∧
      (train_net_multi_gpus ⟨true, false, true, true, 4, "", 0, 0, 0, 0, 1, 1⟩
        "model" "out" (fun _ => ([1], [2])) [] [5, 6] 3).result =
          some ((train_net_worker ⟨true, false, true, true, 4, "", 0, 0, 0, 0, 1, 1⟩
            "model" "out" a0).1)) :=
  root_only_result ⟨true, false, true, true, 4, "", 0, 0, 0, 0, 1, 1⟩
    "model" "out" (fun _ => ([1], [2])) [] [5, 6] 3 (by decide)

/-- Witness for C9: with `solver_count = 2`, `IMS_PER_BATCH = 2`,
`iter_size = 1` and `REAL_BATCH_SIZE = 8`, construction fails with the
batch-size assertion message `"4 vs 8"`. -/
theorem init_batch_size_check_witness :
    solverWrapperInitChecks ⟨true, false, true, true, 4, "", 0, 0, 0, 0, 2, 8⟩
        2 1 true = Except.error "4 vs 8" := by
  have h := init_batch_size_check ⟨true, false, true, true, 4, "", 0, 0, 0, 0, 2, 8⟩
    2 1 true (by decide)
  rw [h]
  rfl

/-- Witness for C10: even with `max_iters = 3` below nothing, the rank-0
result is non-empty at a concrete context. -/
theorem train_model_rank0_nonempty_witness :
    train_model ⟨⟨true, true, true, true, 4, "", 0, 0, 0, 0, 1, 2⟩,
        "out", "model", [], []⟩ 0 5 3 ≠ [] :=
  train_model_rank0_nonempty
    ⟨⟨true, true, true, true, 4, "", 0, 0, 0, 0, 1, 2⟩, "out", "model", [], []⟩ 5 3

end FasterRCNN
